import Mathlib

/-!
Verification of the AYLIEN Text API Node.js client (`textapi.js`).

Shallow embedding of `src/textapi.js`.  JavaScript plain objects holding
string-valued fields are modelled as association lists `Params` with
first-match lookup; JS truthiness of a string field (`params.x`) is
"present with a non-empty value".

The helper library `lib/util.js` (`util.extend`) and the dispatcher
`lib/apirequest.js` (`createAPIRequest`) are not part of the sources;
they are modelled from the specification where so marked.
-/

set_option autoImplicit false

namespace TextAPI

/-- A JavaScript plain object with string-valued fields: an association
list with first-match lookup. -/
abbrev Params := List (String × String)

/-- First-match lookup of a key, as JS property access `p[k]`. -/
def lookupVal : Params → String → Option String
  | [], _ => none
  | (k1, v1) :: rest, k => if k1 = k then some v1 else lookupVal rest k

/-- Key presence test (`k in p`). -/
def hasKey (p : Params) (k : String) : Bool :=
  (lookupVal p k).isSome

/-- JS truthiness of the string field `p[k]`: present and non-empty. -/
def truthy (p : Params) (k : String) : Bool :=
  match lookupVal p k with
  | some v => v != ""
  | none => false

/-- At least one of the keys is truthy. -/
def anyTruthy (p : Params) (ks : List String) : Bool :=
  ks.any (truthy p)

/-- Property assignment `p[k] = v`: replace the first binding of `k`, or
append a new binding when absent. -/
def setVal : Params → String → String → Params
  | [], k, v => [(k, v)]
  | (k1, v1) :: rest, k, v =>
      if k1 = k then (k1, v) :: rest else (k1, v1) :: setVal rest k v

/-- Property deletion `delete p[k]`. -/
def eraseKey (p : Params) (k : String) : Params :=
  p.filter (fun kv => kv.1 != k)

/-- Left-biased choice on optional values. -/
def orO (a b : Option String) : Option String :=
  match a with
  | some v => some v
  | none => b

/-- Modelled from the spec: `lib/util.js` (`util.extend`) is not under the
sources.  "Merge the resulting mapping with the fields of ClientConfig ... such
that CallInput-provided fields take precedence on key collision, and
ClientConfig fields fill in anything absent."  The loop copies each
`source` binding into `target` unless the key is already present. -/
def extend : Params → Params → Params
  | t, [] => t
  | t, (k, v) :: rest =>
      extend (if hasKey t k then t else t ++ [(k, v)]) rest

/-- The client configuration passed at construction (§6 of the spec):
required `application_id` and `application_key`, optional `https`
(default secure) and optional alternate `host`. -/
structure ClientConfig where
  application_id : String
  application_key : String
  https : Option Bool
  host : Option String

/-- The configuration object `this._options`, as a field mapping. -/
def configParams (c : ClientConfig) : Params :=
  [("application_id", c.application_id), ("application_key", c.application_key)]
    ++ (match c.https with
        | some b => [("https", if b then "true" else "false")]
        | none => [])
    ++ (match c.host with
        | some h => [("host", h)]
        | none => [])

/-- The per-call argument: either a bare string or a field mapping. -/
inductive CallInput where
  | str (s : String)
  | map (m : Params)

/-- Char-list prefix test (the anchored part of a `^...` regex match). -/
def listStarts : List Char → List Char → Bool
  | [], _ => true
  | _ :: _, [] => false
  | a :: pat, b :: s => a = b && listStarts pat s

/-- The test of `textapi.js` line 43, a match against the anchored regex
pattern of scheme prefixes (no `i` flag, hence case-sensitive): the
pattern matches exactly the strings starting with `http://` or
`https://`. -/
def isUrlString (s : String) : Bool :=
  listStarts "http://".data s.data || listStarts "https://".data s.data

/-- Method `this.normalizeParams` (`textapi.js` lines 41-51): a bare string is
classified by the URL test into a `url` or `text` field and merged with
`this._options`; a mapping is merged directly. -/
def normalizeParams (opts : Params) : CallInput → Params
  | .str s =>
      if isUrlString s then extend [("url", s)] opts
      else extend [("text", s)] opts
  | .map m => extend m opts

/-- One element of a requirement-rule sequence: a plain field name, or a
group of alternatives of which at least one must be present. -/
inductive ReqElem where
  | one (k : String)
  | anyOf (ks : List String)
deriving DecidableEq

/-- A requirement rule as passed to the dispatcher at the call sites of
`textapi.js`: a bare field name (the `phrase` and `url` rules) or a
sequence of elements (the text-or-url group rules). -/
inductive Rule where
  | single (k : String)
  | group (es : List ReqElem)
deriving DecidableEq

/-- Satisfaction of one rule element against the parameters. -/
def elemSat (p : Params) : ReqElem → Bool
  | .one k => truthy p k
  | .anyOf ks => anyTruthy p ks

/-- Modelled from the spec: the recursive rule evaluator of
`lib/apirequest.js` (§4.2 step 1).  A plain name requires a non-empty
value; a group requires at least one non-empty alternative; a sequence
requires every element; the empty sequence holds trivially. -/
def validate (p : Params) : Rule → Bool
  | .single k => truthy p k
  | .group es => es.all (elemSat p)

/-- Comma-separated rendering of a name list. -/
def joinComma (ks : List String) : String :=
  String.intercalate ", " ks

/-- Human-readable description of one rule element. -/
def elemDescr : ReqElem → String
  | .one k => k
  | .anyOf ks => "one of " ++ joinComma ks

/-- The unsatisfied parts of a rule, rendered by name. -/
def unsatList (p : Params) : Rule → List String
  | .single k => if truthy p k then [] else [k]
  | .group es => (es.filter (fun e => !(elemSat p e))).map elemDescr

/-- Modelled from the spec: the validation error text of
`lib/apirequest.js` "must name the missing/alternative fields" (§4.2). -/
def missingMessage (p : Params) (r : Rule) : String :=
  "You must provide the following parameters: " ++ joinComma (unsatList p r)

/-- Modelled from the spec: the serialized outbound request of §4.2
step 2 — endpoint path, credential headers taken from the parameters,
scheme defaulting to secure, and a form-encoded body of the remaining
fields. -/
structure APIRequest where
  endpoint : String
  application_id : Option String
  application_key : Option String
  https : Bool
  body : List (String × String)
deriving DecidableEq

/-- The transport-level keys never serialized into the form body. -/
def metaKeys : List String :=
  ["endpoint", "application_id", "application_key", "https", "host"]

/-- Modelled from the spec: building the outbound request from the merged
parameters (§4.2 step 2). -/
def mkRequest (p : Params) : APIRequest :=
  { endpoint := (lookupVal p "endpoint").getD ""
    application_id := lookupVal p "application_id"
    application_key := lookupVal p "application_key"
    https := lookupVal p "https" != some "false"
    body := p.filter (fun kv => !(metaKeys.contains kv.1)) }

/-- The locally observable outcome of one dispatch: either a synchronous
error with no network activity, or exactly one outbound request. -/
inductive DispatchResult where
  | localError (msg : String)
  | networkCall (req : APIRequest)
deriving DecidableEq

/-- Modelled from the spec: `createAPIRequest` of `lib/apirequest.js`
(§4.2) — validate the rule; on failure invoke the callback synchronously
with a descriptive error and make no network call; on success issue
exactly one request. -/
def createAPIRequest (p : Params) (r : Rule) : DispatchResult :=
  if validate p r then .networkCall (mkRequest p)
  else .localError (missingMessage p r)

/-! ## The twelve operations of `textapi.js` -/

/-- Operation `this.sentiment` (lines 70-73). -/
def sentiment (opts : Params) (p : CallInput) : DispatchResult :=
  createAPIRequest (extend [("endpoint", "sentiment")] (normalizeParams opts p))
    (Rule.group [ReqElem.anyOf ["text", "url"]])

/-- The field renaming of `this.extract` (line 93): when `text` is truthy
and `html` is not, assign `html` from `text` and delete `text`. -/
def extractRename (ps : Params) : Params :=
  if truthy ps "text" && !(truthy ps "html") then
    eraseKey (setVal ps "html" ((lookupVal ps "text").getD "")) "text"
  else ps

/-- The parameters `this.extract` hands to the dispatcher. -/
def extractParams (opts : Params) (p : CallInput) : Params :=
  extractRename (extend [("endpoint", "extract")] (normalizeParams opts p))

/-- Operation `this.extract` (lines 91-95). -/
def extract (opts : Params) (p : CallInput) : DispatchResult :=
  createAPIRequest (extractParams opts p) (Rule.group [ReqElem.anyOf ["url", "html"]])

/-- Operation `this.language` (lines 112-115). -/
def language (opts : Params) (p : CallInput) : DispatchResult :=
  createAPIRequest (extend [("endpoint", "language")] (normalizeParams opts p))
    (Rule.group [ReqElem.anyOf ["text", "url"]])

/-- Operation `this.classify` (lines 132-135). -/
def classify (opts : Params) (p : CallInput) : DispatchResult :=
  createAPIRequest (extend [("endpoint", "classify")] (normalizeParams opts p))
    (Rule.group [ReqElem.anyOf ["text", "url"]])

/-- Operation `this.unsupervisedClassify` (lines 154-157). -/
def unsupervisedClassify (opts : Params) (p : CallInput) : DispatchResult :=
  createAPIRequest (extend [("endpoint", "classify/unsupervised")] (normalizeParams opts p))
    (Rule.group [ReqElem.anyOf ["text", "url"], ReqElem.one "class"])

/-- Operation `this.concepts` (lines 175-178). -/
def concepts (opts : Params) (p : CallInput) : DispatchResult :=
  createAPIRequest (extend [("endpoint", "concepts")] (normalizeParams opts p))
    (Rule.group [ReqElem.anyOf ["text", "url"]])

/-- Operation `this.entities` (lines 195-198). -/
def entities (opts : Params) (p : CallInput) : DispatchResult :=
  createAPIRequest (extend [("endpoint", "entities")] (normalizeParams opts p))
    (Rule.group [ReqElem.anyOf ["text", "url"]])

/-- Operation `this.hashtags` (lines 214-217). -/
def hashtags (opts : Params) (p : CallInput) : DispatchResult :=
  createAPIRequest (extend [("endpoint", "hashtags")] (normalizeParams opts p))
    (Rule.group [ReqElem.anyOf ["text", "url"]])

/-- The merged parameters of `this.summarize` (line 240). -/
def summarizeParams (opts : Params) (p : CallInput) : Params :=
  extend [("endpoint", "summarize")] (normalizeParams opts p)

/-- The hand-written precondition error of `summarize` (line 242). -/
def summarizeError : String :=
  "You must either provide url, or pair of text and title"

/-- Operation `this.summarize` (lines 239-246): the only operation with a
hand-written precondition checked before dispatch
(`if (!params.url && (!params.text || !params.title))`). -/
def summarize (opts : Params) (p : CallInput) : DispatchResult :=
  if !(truthy (summarizeParams opts p) "url")
      && (!(truthy (summarizeParams opts p) "text")
          || !(truthy (summarizeParams opts p) "title")) then
    .localError summarizeError
  else
    createAPIRequest (summarizeParams opts p) (Rule.group [])

/-- The field renaming of `this.related` (line 263): when `text` is
truthy and `phrase` is not, assign `phrase` from `text` and delete
`text`. -/
def relatedRename (ps : Params) : Params :=
  if truthy ps "text" && !(truthy ps "phrase") then
    eraseKey (setVal ps "phrase" ((lookupVal ps "text").getD "")) "text"
  else ps

/-- The parameters `this.related` hands to the dispatcher. -/
def relatedParams (opts : Params) (p : CallInput) : Params :=
  relatedRename (extend [("endpoint", "related")] (normalizeParams opts p))

/-- Operation `this.related` (lines 261-265). -/
def related (opts : Params) (p : CallInput) : DispatchResult :=
  createAPIRequest (relatedParams opts p) (Rule.single "phrase")

/-- Operation `this.microformats` (lines 279-282). -/
def microformats (opts : Params) (p : CallInput) : DispatchResult :=
  createAPIRequest (extend [("endpoint", "microformats")] (normalizeParams opts p))
    (Rule.single "url")

/-- Operation `this.imageTags` (lines 296-299). -/
def imageTags (opts : Params) (p : CallInput) : DispatchResult :=
  createAPIRequest (extend [("endpoint", "image-tags")] (normalizeParams opts p))
    (Rule.single "url")

/-! ## The operation catalog -/

/-- The names of the operations installed on the client object. -/
inductive OpName where
  | sentiment | extract | language | classify | unsupervisedClassify
  | concepts | entities | hashtags | summarize | related
  | microformats | imageTags
deriving DecidableEq

/-- Every operation the client exposes, in source order. -/
def allOps : List OpName :=
  [.sentiment, .extract, .language, .classify, .unsupervisedClassify,
   .concepts, .entities, .hashtags, .summarize, .related,
   .microformats, .imageTags]

/-- The fixed endpoint string of each operation. -/
def opEndpoint : OpName → String
  | .sentiment => "sentiment"
  | .extract => "extract"
  | .language => "language"
  | .classify => "classify"
  | .unsupervisedClassify => "classify/unsupervised"
  | .concepts => "concepts"
  | .entities => "entities"
  | .hashtags => "hashtags"
  | .summarize => "summarize"
  | .related => "related"
  | .microformats => "microformats"
  | .imageTags => "image-tags"

/-- The requirement rule each operation passes to the dispatcher. -/
def opRule : OpName → Rule
  | .sentiment => .group [.anyOf ["text", "url"]]
  | .extract => .group [.anyOf ["url", "html"]]
  | .language => .group [.anyOf ["text", "url"]]
  | .classify => .group [.anyOf ["text", "url"]]
  | .unsupervisedClassify => .group [.anyOf ["text", "url"], .one "class"]
  | .concepts => .group [.anyOf ["text", "url"]]
  | .entities => .group [.anyOf ["text", "url"]]
  | .hashtags => .group [.anyOf ["text", "url"]]
  | .summarize => .group []
  | .related => .single "phrase"
  | .microformats => .single "url"
  | .imageTags => .single "url"

/-- The parameters each operation hands to the dispatcher (after the
endpoint default, normalization and any per-operation renaming). -/
def opParams : OpName → Params → CallInput → Params
  | .sentiment, opts, p => extend [("endpoint", "sentiment")] (normalizeParams opts p)
  | .extract, opts, p => extractParams opts p
  | .language, opts, p => extend [("endpoint", "language")] (normalizeParams opts p)
  | .classify, opts, p => extend [("endpoint", "classify")] (normalizeParams opts p)
  | .unsupervisedClassify, opts, p =>
      extend [("endpoint", "classify/unsupervised")] (normalizeParams opts p)
  | .concepts, opts, p => extend [("endpoint", "concepts")] (normalizeParams opts p)
  | .entities, opts, p => extend [("endpoint", "entities")] (normalizeParams opts p)
  | .hashtags, opts, p => extend [("endpoint", "hashtags")] (normalizeParams opts p)
  | .summarize, opts, p => summarizeParams opts p
  | .related, opts, p => relatedParams opts p
  | .microformats, opts, p => extend [("endpoint", "microformats")] (normalizeParams opts p)
  | .imageTags, opts, p => extend [("endpoint", "image-tags")] (normalizeParams opts p)

/-- Invoke one named operation. -/
def opCall : OpName → Params → CallInput → DispatchResult
  | .sentiment => sentiment
  | .extract => extract
  | .language => language
  | .classify => classify
  | .unsupervisedClassify => unsupervisedClassify
  | .concepts => concepts
  | .entities => entities
  | .hashtags => hashtags
  | .summarize => summarize
  | .related => related
  | .microformats => microformats
  | .imageTags => imageTags

/-! ## Callback trace model -/

/-- What the network does once a request has been issued: the transport
fails, or a response body arrives and decodes, or it fails to decode
(§4.2 steps 3-4). -/
inductive NetReply where
  | transportFailure (e : String)
  | decoded (payload : String)
  | decodeFailure (raw : String)

/-- One invocation of the completion callback: an error or a result,
never both. -/
inductive CallbackOutcome where
  | err (msg : String)
  | ok (payload : String)

/-- The callback invocation produced for a network reply. -/
def replyOutcome : NetReply → CallbackOutcome
  | .transportFailure e => .err e
  | .decoded payload => .ok payload
  | .decodeFailure _ => .err "Failed to decode response body"

/-- The sequence of callback invocations one dispatch produces, given the
behaviour of the network: a local error fires the callback once with the
error (and the reply is never consulted); an issued request fires it
once with the outcome of the reply. -/
def dispatchTrace : DispatchResult → NetReply → List CallbackOutcome
  | .localError m, _ => [.err m]
  | .networkCall _, reply => [replyOutcome reply]

/-- How many outbound requests a dispatch issues. -/
def networkCount : DispatchResult → Nat
  | .localError _ => 0
  | .networkCall _ => 1

/-- The callback invocations of one full operation call. -/
def opTrace (n : OpName) (opts : Params) (p : CallInput) (reply : NetReply) :
    List CallbackOutcome :=
  dispatchTrace (opCall n opts p) reply

/-! ## State-threaded merge (for the frame property on `this._options`)

`util.extend(target, source)` iterates over the bindings of `source` and
writes only into `target`; `extendS` renders the iteration with the
source object threaded through, returning the merged target together
with the source object as it stands when the loop ends. -/

/-- Modelled from the spec: the `util.extend` loop with the source object
threaded through the iteration; each step reads one binding of the
source and writes only into the target. -/
def extendS : Params → Params → Params × Params
  | t, [] => (t, [])
  | t, (k, v) :: rest =>
      ((extendS (if hasKey t k then t else t ++ [(k, v)]) rest).1,
       (k, v) :: (extendS (if hasKey t k then t else t ++ [(k, v)]) rest).2)

/-- Variant of `normalizeParams` with the options object threaded through: returns
the merged parameters together with `this._options` as it stands after
the call. -/
def normalizeParamsS (opts : Params) : CallInput → Params × Params
  | .str s =>
      if isUrlString s then extendS [("url", s)] opts
      else extendS [("text", s)] opts
  | .map m => extendS m opts

/-- Value of `this._options` as it stands after one operation call: every
operation reads the options only through `normalizeParams` and never
assigns `this._options` (visible in `textapi.js`, which writes it only
in the constructor, line 39). -/
def optionsAfterCall (_ : OpName) (opts : Params) (p : CallInput) : Params :=
  (normalizeParamsS opts p).2

/-- The lowercase scheme test, made explicit at the character level: the
exact characters the regex of line 43 accepts. -/
def lowerHttpStart (s : String) : Bool :=
  listStarts ['h', 't', 't', 'p', ':', '/', '/'] s.data
    || listStarts ['h', 't', 't', 'p', 's', ':', '/', '/'] s.data

/-- The requirement rule shared by the six text-or-url operations. -/
def textUrlRule : Rule :=
  Rule.group [ReqElem.anyOf ["text", "url"]]

/-! ## Basic lemmas on the parameter maps -/

theorem orO_none (a : Option String) : orO a none = a := by
  cases a <;> rfl

theorem lookup_append (t u : Params) (k : String) :
    lookupVal (t ++ u) k = orO (lookupVal t k) (lookupVal u k) := by
  induction t with
  | nil => rfl
  | cons hd tl ih =>
      obtain ⟨k1, v1⟩ := hd
      by_cases h : k1 = k
      · simp [lookupVal, h, orO]
      · simp [lookupVal, h, ih]

theorem hasKey_false_iff (t : Params) (k : String) :
    hasKey t k = false ↔ lookupVal t k = none := by
  unfold hasKey
  cases lookupVal t k <;> simp

theorem hasKey_true_iff (t : Params) (k : String) :
    hasKey t k = true ↔ ∃ v, lookupVal t k = some v := by
  unfold hasKey
  cases lookupVal t k <;> simp

theorem lookup_extend (s t : Params) (k : String) :
    lookupVal (extend t s) k = orO (lookupVal t k) (lookupVal s k) := by
  induction s generalizing t with
  | nil => simp [extend, lookupVal, orO_none]
  | cons hd rest ih =>
      obtain ⟨k1, v1⟩ := hd
      show lookupVal (extend (if hasKey t k1 then t else t ++ [(k1, v1)]) rest) k = _
      by_cases hkey : hasKey t k1
      · simp only [hkey, if_true, ih]
        by_cases h : k1 = k
        · subst h
          obtain ⟨v, hv⟩ := (hasKey_true_iff t k1).mp hkey
          simp [lookupVal, hv, orO]
        · simp [lookupVal, h]
      · simp only [hkey, if_false, Bool.false_eq_true, ite_false, ih, lookup_append]
        by_cases h : k1 = k
        · subst h
          have hnone : lookupVal t k1 = none := (hasKey_false_iff t k1).mp (by simpa using hkey)
          simp [lookupVal, hnone, orO]
        · simp [lookupVal, h, orO_none]

theorem lookup_setVal_self (t : Params) (k v : String) :
    lookupVal (setVal t k v) k = some v := by
  induction t with
  | nil => simp [setVal, lookupVal]
  | cons hd tl ih =>
      obtain ⟨k1, v1⟩ := hd
      by_cases h : k1 = k
      · simp [setVal, h, lookupVal]
      · simp [setVal, h, lookupVal, ih]

theorem lookup_setVal_other (t : Params) (k v k2 : String) (h : k2 ≠ k) :
    lookupVal (setVal t k v) k2 = lookupVal t k2 := by
  induction t with
  | nil => simp [setVal, lookupVal, Ne.symm h]
  | cons hd tl ih =>
      obtain ⟨k1, v1⟩ := hd
      by_cases h1 : k1 = k
      · subst h1
        simp [setVal, lookupVal, Ne.symm h]
      · simp [setVal, h1, lookupVal, ih]

theorem lookup_erase_self (t : Params) (k : String) :
    lookupVal (eraseKey t k) k = none := by
  induction t with
  | nil => rfl
  | cons hd tl ih =>
      obtain ⟨k1, v1⟩ := hd
      by_cases h : k1 = k
      · subst h
        simpa [eraseKey, List.filter_cons] using ih
      · simpa [eraseKey, List.filter_cons, h, lookupVal] using ih

theorem lookup_erase_other (t : Params) (k k2 : String) (h : k2 ≠ k) :
    lookupVal (eraseKey t k) k2 = lookupVal t k2 := by
  induction t with
  | nil => rfl
  | cons hd tl ih =>
      obtain ⟨k1, v1⟩ := hd
      by_cases h1 : k1 = k
      · subst h1
        simpa [eraseKey, List.filter_cons, lookupVal, Ne.symm h] using ih
      · by_cases h2 : k1 = k2
        · simp [eraseKey, List.filter_cons, h1, lookupVal, h2, h]
        · simpa [eraseKey, List.filter_cons, h1, lookupVal, h2] using ih

theorem config_lookup_id (c : ClientConfig) :
    lookupVal (configParams c) "application_id" = some c.application_id := rfl

theorem config_lookup_key (c : ClientConfig) :
    lookupVal (configParams c) "application_key" = some c.application_key := by
  simp [configParams, lookupVal]

theorem config_lookup_text (c : ClientConfig) :
    lookupVal (configParams c) "text" = none := by
  obtain ⟨i, a, hs, ho⟩ := c
  cases hs <;> cases ho <;> simp [configParams, lookupVal]

theorem config_lookup_url (c : ClientConfig) :
    lookupVal (configParams c) "url" = none := by
  obtain ⟨i, a, hs, ho⟩ := c
  cases hs <;> cases ho <;> simp [configParams, lookupVal]

theorem createAPIRequest_networkCall_inv (p : Params) (r : Rule) (req : APIRequest)
    (h : createAPIRequest p r = .networkCall req) :
    validate p r = true ∧ req = mkRequest p := by
  unfold createAPIRequest at h
  by_cases hv : validate p r
  · simp only [hv, if_true] at h
    exact ⟨hv, (DispatchResult.networkCall.injEq _ _).mp h.symm⟩
  · simp [hv] at h

theorem truthy_some (t : Params) (k : String) (h : truthy t k = true) :
    lookupVal t k = some ((lookupVal t k).getD "") := by
  unfold truthy at h
  cases hv : lookupVal t k with
  | none => rw [hv] at h; simp at h
  | some v => simp

theorem mkRequest_endpoint (p : Params) :
    (mkRequest p).endpoint = (lookupVal p "endpoint").getD "" := rfl

theorem endpoint_of_extend (e : String) (rest : Params) :
    lookupVal (extend [("endpoint", e)] rest) "endpoint" = some e := by
  rw [lookup_extend]
  simp [lookupVal, orO]

theorem extractRename_endpoint (ps : Params) :
    lookupVal (extractRename ps) "endpoint" = lookupVal ps "endpoint" := by
  unfold extractRename
  by_cases hc : (truthy ps "text" && !(truthy ps "html")) = true
  · rw [if_pos hc, lookup_erase_other _ _ _ (by decide),
      lookup_setVal_other _ _ _ _ (by decide)]
  · rw [if_neg hc]

theorem relatedRename_endpoint (ps : Params) :
    lookupVal (relatedRename ps) "endpoint" = lookupVal ps "endpoint" := by
  unfold relatedRename
  by_cases hc : (truthy ps "text" && !(truthy ps "phrase")) = true
  · rw [if_pos hc, lookup_erase_other _ _ _ (by decide),
      lookup_setVal_other _ _ _ _ (by decide)]
  · rw [if_neg hc]

theorem extendS_snd (t s : Params) : (extendS t s).2 = s := by
  induction s generalizing t with
  | nil => rfl
  | cons hd rest ih =>
      obtain ⟨k, v⟩ := hd
      show (k, v) :: (extendS (if hasKey t k then t else t ++ [(k, v)]) rest).2 = _
      rw [ih]

theorem extendS_fst (t s : Params) : (extendS t s).1 = extend t s := by
  induction s generalizing t with
  | nil => rfl
  | cons hd rest ih =>
      obtain ⟨k, v⟩ := hd
      show (extendS (if hasKey t k then t else t ++ [(k, v)]) rest).1 = _
      rw [ih]
      rfl

/-! ## The claims -/

/-- C1 counterexample: with normalized params containing a `url` field
whose value is the empty string, the claim says the call proceeds to
dispatch, but `summarize` checks JS truthiness (`!params.url`), invokes
the callback with the precondition error, and never reaches the network
layer. -/
theorem summarize_contains_url_counterexample :
    lookupVal (summarizeParams [] (CallInput.map [("url", "")])) "url" = some ""
    ∧ summarize [] (CallInput.map [("url", "")])
        = DispatchResult.localError summarizeError
    ∧ networkCount (summarize [] (CallInput.map [("url", "")])) = 0 := by
  decide

/-- C1 (amended): for every call to `summarize`, if the normalized
params contain a non-empty `url` value, or both a non-empty `text` and a
non-empty `title` value, the call proceeds to dispatch; otherwise the
callback is invoked exactly once with the precondition error and the
network layer is never invoked. -/
theorem summarize_precondition (opts : Params) (p : CallInput) :
    ((truthy (summarizeParams opts p) "url"
        || (truthy (summarizeParams opts p) "text"
            && truthy (summarizeParams opts p) "title")) = true →
      summarize opts p
        = DispatchResult.networkCall (mkRequest (summarizeParams opts p)))
    ∧ ((truthy (summarizeParams opts p) "url"
        || (truthy (summarizeParams opts p) "text"
            && truthy (summarizeParams opts p) "title")) = false →
      summarize opts p = DispatchResult.localError summarizeError
      ∧ networkCount (summarize opts p) = 0
      ∧ ∀ reply, dispatchTrace (summarize opts p) reply
          = [CallbackOutcome.err summarizeError]) := by
  have key : ∀ a b c : Bool, (!a && (!b || !c)) = !(a || b && c) := by decide
  constructor
  · intro h
    unfold summarize
    rw [key, h]
    rfl
  · intro h
    unfold summarize
    rw [key, h]
    exact ⟨rfl, rfl, fun reply => rfl⟩

/-- C1 witness: the two examples of the claim, `url` alone proceeding to
dispatch and `text` alone failing with the precondition error. -/
theorem summarize_precondition_witness :
    summarize [] (CallInput.map [("url", "http://example.com")])
      = DispatchResult.networkCall
          (mkRequest (summarizeParams [] (CallInput.map [("url", "http://example.com")])))
    ∧ summarize [] (CallInput.map [("text", "a")])
        = DispatchResult.localError summarizeError :=
  ⟨(summarize_precondition [] (CallInput.map [("url", "http://example.com")])).1 (by decide),
   ((summarize_precondition [] (CallInput.map [("text", "a")])).2 (by decide)).1⟩

/-- C3: a bare-string CallInput matching the URL pattern at the start
yields a mapping with `url` set to that string and no `text` key; every
other string yields `text` set to that string and no `url` key. -/
theorem normalize_string_classification (cfg : ClientConfig) (s : String) :
    (isUrlString s = true →
        lookupVal (normalizeParams (configParams cfg) (CallInput.str s)) "url" = some s
        ∧ lookupVal (normalizeParams (configParams cfg) (CallInput.str s)) "text" = none)
    ∧ (isUrlString s = false →
        lookupVal (normalizeParams (configParams cfg) (CallInput.str s)) "text" = some s
        ∧ lookupVal (normalizeParams (configParams cfg) (CallInput.str s)) "url" = none) := by
  have h1 : lookupVal [("url", s)] "text" = none := rfl
  have h2 : lookupVal [("text", s)] "url" = none := rfl
  have h3 : lookupVal [("url", s)] "url" = some s := rfl
  have h4 : lookupVal [("text", s)] "text" = some s := rfl
  constructor <;> intro h <;>
    simp [normalizeParams, h, lookup_extend, h1, h2, h3, h4, orO,
      config_lookup_text, config_lookup_url]

/-- C3 witness: a URL-shaped string and a plain string, classified. -/
theorem normalize_string_classification_witness :
    (lookupVal (normalizeParams (configParams ⟨"id", "key", none, none⟩)
        (CallInput.str "http://example.com")) "url" = some "http://example.com"
      ∧ lookupVal (normalizeParams (configParams ⟨"id", "key", none, none⟩)
          (CallInput.str "http://example.com")) "text" = none)
    ∧ (lookupVal (normalizeParams (configParams ⟨"id", "key", none, none⟩)
          (CallInput.str "hello world")) "text" = some "hello world"
        ∧ lookupVal (normalizeParams (configParams ⟨"id", "key", none, none⟩)
            (CallInput.str "hello world")) "url" = none) :=
  ⟨(normalize_string_classification ⟨"id", "key", none, none⟩ "http://example.com").1
      (by decide),
   (normalize_string_classification ⟨"id", "key", none, none⟩ "hello world").2
      (by decide)⟩

/-- C7 counterexample: the claim says `HTTP://example.com` is classified
as a URL, but the regex of line 43 carries no `i` flag, so the
uppercase-scheme string is classified as text. -/
theorem url_case_counterexample :
    lookupVal (normalizeParams (configParams ⟨"id", "key", none, none⟩)
        (CallInput.str "HTTP://example.com")) "url" = none
    ∧ lookupVal (normalizeParams (configParams ⟨"id", "key", none, none⟩)
        (CallInput.str "HTTP://example.com")) "text" = some "HTTP://example.com" := by
  decide

/-- C7 (amended): the URL-pattern test on bare-string CallInput is
case-sensitive over the scheme: exactly the strings starting with the
lowercase characters `http://` or `https://` are classified as URLs;
any string not starting with those characters — including
`HTTP://example.com` — is classified as text. -/
theorem url_test_case_sensitive (cfg : ClientConfig) (s : String) :
    isUrlString s = lowerHttpStart s
    ∧ (lowerHttpStart s = false →
        lookupVal (normalizeParams (configParams cfg) (CallInput.str s)) "url" = none
        ∧ lookupVal (normalizeParams (configParams cfg) (CallInput.str s)) "text" = some s)
    ∧ lowerHttpStart "HTTP://example.com" = false
    ∧ lowerHttpStart "http://example.com" = true := by
  have heq : isUrlString s = lowerHttpStart s := rfl
  refine ⟨heq, ?_, by decide, by decide⟩
  intro h
  have hurl : isUrlString s = false := heq.trans h
  have h2 : lookupVal [("text", s)] "url" = none := rfl
  have h4 : lookupVal [("text", s)] "text" = some s := rfl
  simp [normalizeParams, hurl, lookup_extend, h2, h4, orO,
    config_lookup_text, config_lookup_url]

/-- C7 witness: the uppercase-scheme string of the claim is classified
as text. -/
theorem url_test_case_sensitive_witness :
    lookupVal (normalizeParams (configParams ⟨"id", "key", none, none⟩)
        (CallInput.str "HTTP://a")) "url" = none
    ∧ lookupVal (normalizeParams (configParams ⟨"id", "key", none, none⟩)
        (CallInput.str "HTTP://a")) "text" = some "HTTP://a" :=
  (url_test_case_sensitive ⟨"id", "key", none, none⟩ "HTTP://a").2.1 (by decide)

/-- C2: for every mapping-shaped CallInput, the merge with the client
configuration gives CallInput-provided fields precedence on key
collision, configuration fields fill in only absent keys, and the output
always contains the `application_id` and `application_key` of the
caller. -/
theorem normalize_map_merge (cfg : ClientConfig) (m : Params) :
    (∀ k, lookupVal (normalizeParams (configParams cfg) (CallInput.map m)) k
        = orO (lookupVal m k) (lookupVal (configParams cfg) k))
    ∧ (∀ k v, lookupVal m k = some v →
        lookupVal (normalizeParams (configParams cfg) (CallInput.map m)) k = some v)
    ∧ (∀ k v, lookupVal m k = none → lookupVal (configParams cfg) k = some v →
        lookupVal (normalizeParams (configParams cfg) (CallInput.map m)) k = some v)
    ∧ hasKey (normalizeParams (configParams cfg) (CallInput.map m)) "application_id" = true
    ∧ hasKey (normalizeParams (configParams cfg) (CallInput.map m)) "application_key" = true
    ∧ (lookupVal m "application_id" = none →
        lookupVal (normalizeParams (configParams cfg) (CallInput.map m)) "application_id"
          = some cfg.application_id)
    ∧ (lookupVal m "application_key" = none →
        lookupVal (normalizeParams (configParams cfg) (CallInput.map m)) "application_key"
          = some cfg.application_key) := by
  have hbase : ∀ k, lookupVal (normalizeParams (configParams cfg) (CallInput.map m)) k
      = orO (lookupVal m k) (lookupVal (configParams cfg) k) := by
    intro k
    show lookupVal (extend m (configParams cfg)) k = _
    exact lookup_extend (configParams cfg) m k
  refine ⟨hbase, ?_, ?_, ?_, ?_, ?_, ?_⟩
  · intro k v h
    rw [hbase k, h]
    rfl
  · intro k v h1 h2
    rw [hbase k, h1, h2]
    rfl
  · rw [hasKey, hbase "application_id", config_lookup_id]
    cases lookupVal m "application_id" <;> rfl
  · rw [hasKey, hbase "application_key", config_lookup_key]
    cases lookupVal m "application_key" <;> rfl
  · intro h
    rw [hbase "application_id", h, config_lookup_id]
    rfl
  · intro h
    rw [hbase "application_key", h, config_lookup_key]
    rfl

/-- C2 witness: a concrete mapping keeps its own field, and the
credentials of the configuration are filled in. -/
theorem normalize_map_merge_witness :
    lookupVal (normalizeParams (configParams ⟨"id", "key", none, none⟩)
        (CallInput.map [("text", "hello")])) "text" = some "hello"
    ∧ lookupVal (normalizeParams (configParams ⟨"id", "key", none, none⟩)
        (CallInput.map [("text", "hello")])) "application_id" = some "id" :=
  ⟨(normalize_map_merge ⟨"id", "key", none, none⟩ [("text", "hello")]).2.1
      "text" "hello" (by decide),
   (normalize_map_merge ⟨"id", "key", none, none⟩ [("text", "hello")]).2.2.2.2.2.1
      (by decide)⟩

/-- C4: with rule `[['text', 'url']]` and params containing neither a
non-empty `text` nor a non-empty `url`, dispatch invokes the callback
once, synchronously, with an error naming the missing alternatives and
makes no network call; with params `text = hello` validation passes and
the serialized request contains that field. -/
theorem dispatch_validation (p : Params) :
    (truthy p "text" = false → truthy p "url" = false →
        createAPIRequest p textUrlRule
          = DispatchResult.localError
              "You must provide the following parameters: one of text, url"
        ∧ networkCount (createAPIRequest p textUrlRule) = 0
        ∧ ∀ reply, dispatchTrace (createAPIRequest p textUrlRule) reply
            = [CallbackOutcome.err
                "You must provide the following parameters: one of text, url"])
    ∧ validate [("text", "hello")] textUrlRule = true
    ∧ createAPIRequest [("text", "hello")] textUrlRule
        = DispatchResult.networkCall (mkRequest [("text", "hello")])
    ∧ ("text", "hello") ∈ (mkRequest [("text", "hello")]).body := by
  refine ⟨?_, by decide, by decide, by decide⟩
  intro h1 h2
  have hsat : elemSat p (ReqElem.anyOf ["text", "url"]) = false := by
    simp [elemSat, anyTruthy, h1, h2]
  have hv : validate p textUrlRule = false := by
    simp [validate, textUrlRule, hsat]
  have hm : missingMessage p textUrlRule
      = "You must provide the following parameters: one of text, url" := by
    simp only [missingMessage, unsatList, textUrlRule, List.filter_cons, hsat,
      Bool.not_false, if_true, List.filter_nil, List.map_cons, List.map_nil,
      elemDescr]
    decide
  refine ⟨?_, ?_, ?_⟩
  · rw [createAPIRequest, hv, hm]
    rfl
  · rw [createAPIRequest, hv]
    rfl
  · intro reply
    rw [createAPIRequest, hv, hm]
    rfl

/-- C4 witness: the empty parameter map fails validation with the error
naming both alternatives. -/
theorem dispatch_validation_witness :
    createAPIRequest [] textUrlRule
      = DispatchResult.localError
          "You must provide the following parameters: one of text, url"
    ∧ networkCount (createAPIRequest [] textUrlRule) = 0 :=
  ⟨((dispatch_validation []).1 (by decide) (by decide)).1,
   ((dispatch_validation []).1 (by decide) (by decide)).2.1⟩

/-- C5: every call to every operation delivers exactly one terminal
outcome through the completion callback — an error or a result, never
both and never neither — whatever the network does; errors are values
handed to the callback, never thrown out of the (total) call. -/
theorem exactly_one_outcome (n : OpName) (opts : Params) (p : CallInput)
    (reply : NetReply) :
    (opTrace n opts p reply).length = 1
    ∧ ((∃ m, opTrace n opts p reply = [CallbackOutcome.err m])
        ∨ (∃ r, opTrace n opts p reply = [CallbackOutcome.ok r])) := by
  unfold opTrace
  cases opCall n opts p with
  | localError m => exact ⟨rfl, Or.inl ⟨m, rfl⟩⟩
  | networkCall req =>
      cases reply with
      | transportFailure e => exact ⟨rfl, Or.inl ⟨e, rfl⟩⟩
      | decoded payload => exact ⟨rfl, Or.inr ⟨payload, rfl⟩⟩
      | decodeFailure raw =>
          exact ⟨rfl, Or.inl ⟨"Failed to decode response body", rfl⟩⟩

/-- C6 counterexample: with params whose `text` field is the empty
string and no `html` field, the claim says `extract` dispatches with
`html` set and no `text` key, but the rename of line 93 checks JS
truthiness (`params.text`), does not fire, and the dispatched params
keep the `text` key with no `html` key. -/
theorem extract_rename_counterexample :
    lookupVal (extractParams [] (CallInput.map [("text", "")])) "html" = none
    ∧ lookupVal (extractParams [] (CallInput.map [("text", "")])) "text" = some "" := by
  decide

/-- C6 (amended): for `extract`, if after normalization the params have
a non-empty `text` value and no non-empty `html` value, the dispatched
params carry `html` equal to that `text` value and no `text` key; for
`related`, the same with `phrase` in place of `html`. -/
theorem rename_text_fields (opts : Params) (p : CallInput) :
    (truthy (extend [("endpoint", "extract")] (normalizeParams opts p)) "text" = true →
      truthy (extend [("endpoint", "extract")] (normalizeParams opts p)) "html" = false →
        lookupVal (extractParams opts p) "html"
          = lookupVal (extend [("endpoint", "extract")] (normalizeParams opts p)) "text"
        ∧ lookupVal (extractParams opts p) "text" = none)
    ∧ (truthy (extend [("endpoint", "related")] (normalizeParams opts p)) "text" = true →
      truthy (extend [("endpoint", "related")] (normalizeParams opts p)) "phrase" = false →
        lookupVal (relatedParams opts p) "phrase"
          = lookupVal (extend [("endpoint", "related")] (normalizeParams opts p)) "text"
        ∧ lookupVal (relatedParams opts p) "text" = none) := by
  constructor
  · intro ht hh
    unfold extractParams extractRename
    rw [ht, hh]
    show lookupVal (eraseKey (setVal _ "html" _) "text") "html" = _
      ∧ lookupVal (eraseKey (setVal _ "html" _) "text") "text" = none
    rw [lookup_erase_other _ _ _ (by decide), lookup_setVal_self, lookup_erase_self]
    exact ⟨(truthy_some _ "text" ht).symm, rfl⟩
  · intro ht hh
    unfold relatedParams relatedRename
    rw [ht, hh]
    show lookupVal (eraseKey (setVal _ "phrase" _) "text") "phrase" = _
      ∧ lookupVal (eraseKey (setVal _ "phrase" _) "text") "text" = none
    rw [lookup_erase_other _ _ _ (by decide), lookup_setVal_self, lookup_erase_self]
    exact ⟨(truthy_some _ "text" ht).symm, rfl⟩

/-- C6 witness: concrete `text` inputs renamed to `html` for `extract`
and to `phrase` for `related`. -/
theorem rename_text_fields_witness :
    (lookupVal (extractParams [] (CallInput.map [("text", "body")])) "html"
        = lookupVal (extend [("endpoint", "extract")]
            (normalizeParams [] (CallInput.map [("text", "body")]))) "text"
      ∧ lookupVal (extractParams [] (CallInput.map [("text", "body")])) "text" = none)
    ∧ (lookupVal (relatedParams [] (CallInput.map [("text", "cat")])) "phrase"
        = lookupVal (extend [("endpoint", "related")]
            (normalizeParams [] (CallInput.map [("text", "cat")]))) "text"
      ∧ lookupVal (relatedParams [] (CallInput.map [("text", "cat")])) "text" = none) :=
  ⟨(rename_text_fields [] (CallInput.map [("text", "body")])).1 (by decide) (by decide),
   (rename_text_fields [] (CallInput.map [("text", "cat")])).2 (by decide) (by decide)⟩

/-- C8: the merge reads the configuration object but never writes it —
the `extend` loop, threaded with the source object, returns it exactly
as given, so `this._options` is unchanged by every `normalizeParams`
call and by every operation call. -/
theorem options_never_mutated :
    (∀ t s : Params, (extendS t s).2 = s ∧ (extendS t s).1 = extend t s)
    ∧ (∀ (opts : Params) (p : CallInput),
        (normalizeParamsS opts p).2 = opts
        ∧ (normalizeParamsS opts p).1 = normalizeParams opts p)
    ∧ ∀ (n : OpName) (opts : Params) (p : CallInput),
        optionsAfterCall n opts p = opts := by
  have hnorm : ∀ (opts : Params) (p : CallInput),
      (normalizeParamsS opts p).2 = opts
      ∧ (normalizeParamsS opts p).1 = normalizeParams opts p := by
    intro opts p
    cases p with
    | str s =>
        constructor <;>
          · simp only [normalizeParamsS, normalizeParams]
            by_cases h : isUrlString s = true <;>
              simp [h, extendS_snd, extendS_fst]
    | map m => exact ⟨extendS_snd _ _, extendS_fst _ _⟩
  exact ⟨fun t s => ⟨extendS_snd t s, extendS_fst t s⟩, hnorm,
    fun n opts p => (hnorm opts p).1⟩

/-- C9 counterexample: the client exposes twelve operations, not
fourteen. -/
theorem fourteen_ops_counterexample :
    allOps.length = 12 ∧ allOps.length ≠ 14 := by
  decide

/-- C9 (amended): the client exposes exactly twelve named operations —
sentiment, extract, language, classify, unsupervisedClassify, concepts,
entities, hashtags, summarize, related, microformats, imageTags — each
described by its fixed endpoint name and requirement rule (e.g.
`sentiment` with endpoint `sentiment` and the text-or-url group rule,
`unsupervisedClassify` with endpoint `classify/unsupervised` and the
text-or-url group plus required `class`, `imageTags` with endpoint
`image-tags` and required `url`); every request an operation issues goes
to the endpoint of its catalog entry with its rule validated. -/
theorem catalog_of_operations :
    allOps.length = 12 ∧ allOps.Nodup
    ∧ opEndpoint OpName.sentiment = "sentiment"
    ∧ opRule OpName.sentiment = Rule.group [ReqElem.anyOf ["text", "url"]]
    ∧ opEndpoint OpName.unsupervisedClassify = "classify/unsupervised"
    ∧ opRule OpName.unsupervisedClassify
        = Rule.group [ReqElem.anyOf ["text", "url"], ReqElem.one "class"]
    ∧ opEndpoint OpName.imageTags = "image-tags"
    ∧ opRule OpName.imageTags = Rule.single "url"
    ∧ ∀ (n : OpName) (opts : Params) (p : CallInput) (req : APIRequest),
        opCall n opts p = DispatchResult.networkCall req →
          req = mkRequest (opParams n opts p)
          ∧ req.endpoint = opEndpoint n
          ∧ validate (opParams n opts p) (opRule n) = true := by
  refine ⟨by decide, by decide, rfl, rfl, rfl, rfl, rfl, rfl, ?_⟩
  intro n opts p req h
  cases n with
  | extract =>
      obtain ⟨hv, hreq⟩ := createAPIRequest_networkCall_inv _ _ _ h
      refine ⟨hreq, ?_, hv⟩
      rw [hreq, mkRequest_endpoint]
      show (lookupVal (extractRename (extend [("endpoint", "extract")]
        (normalizeParams opts p))) "endpoint").getD "" = _
      rw [extractRename_endpoint, endpoint_of_extend]
      rfl
  | related =>
      obtain ⟨hv, hreq⟩ := createAPIRequest_networkCall_inv _ _ _ h
      refine ⟨hreq, ?_, hv⟩
      rw [hreq, mkRequest_endpoint]
      show (lookupVal (relatedRename (extend [("endpoint", "related")]
        (normalizeParams opts p))) "endpoint").getD "" = _
      rw [relatedRename_endpoint, endpoint_of_extend]
      rfl
  | summarize =>
      replace h : summarize opts p = DispatchResult.networkCall req := h
      rw [summarize] at h
      by_cases hc : (!(truthy (summarizeParams opts p) "url")
          && (!(truthy (summarizeParams opts p) "text")
              || !(truthy (summarizeParams opts p) "title"))) = true
      · rw [if_pos hc] at h
        simp at h
      · rw [if_neg hc] at h
        obtain ⟨hv, hreq⟩ := createAPIRequest_networkCall_inv _ _ _ h
        refine ⟨hreq, ?_, hv⟩
        rw [hreq, mkRequest_endpoint]
        show (lookupVal (extend [("endpoint", "summarize")]
          (normalizeParams opts p)) "endpoint").getD "" = _
        rw [endpoint_of_extend]
        rfl
  | sentiment =>
      obtain ⟨hv, hreq⟩ := createAPIRequest_networkCall_inv _ _ _ h
      exact ⟨hreq, by rw [hreq, mkRequest_endpoint, endpoint_of_extend]; rfl, hv⟩
  | language =>
      obtain ⟨hv, hreq⟩ := createAPIRequest_networkCall_inv _ _ _ h
      exact ⟨hreq, by rw [hreq, mkRequest_endpoint, endpoint_of_extend]; rfl, hv⟩
  | classify =>
      obtain ⟨hv, hreq⟩ := createAPIRequest_networkCall_inv _ _ _ h
      exact ⟨hreq, by rw [hreq, mkRequest_endpoint, endpoint_of_extend]; rfl, hv⟩
  | unsupervisedClassify =>
      obtain ⟨hv, hreq⟩ := createAPIRequest_networkCall_inv _ _ _ h
      exact ⟨hreq, by rw [hreq, mkRequest_endpoint, endpoint_of_extend]; rfl, hv⟩
  | concepts =>
      obtain ⟨hv, hreq⟩ := createAPIRequest_networkCall_inv _ _ _ h
      exact ⟨hreq, by rw [hreq, mkRequest_endpoint, endpoint_of_extend]; rfl, hv⟩
  | entities =>
      obtain ⟨hv, hreq⟩ := createAPIRequest_networkCall_inv _ _ _ h
      exact ⟨hreq, by rw [hreq, mkRequest_endpoint, endpoint_of_extend]; rfl, hv⟩
  | hashtags =>
      obtain ⟨hv, hreq⟩ := createAPIRequest_networkCall_inv _ _ _ h
      exact ⟨hreq, by rw [hreq, mkRequest_endpoint, endpoint_of_extend]; rfl, hv⟩
  | microformats =>
      obtain ⟨hv, hreq⟩ := createAPIRequest_networkCall_inv _ _ _ h
      exact ⟨hreq, by rw [hreq, mkRequest_endpoint, endpoint_of_extend]; rfl, hv⟩
  | imageTags =>
      obtain ⟨hv, hreq⟩ := createAPIRequest_networkCall_inv _ _ _ h
      exact ⟨hreq, by rw [hreq, mkRequest_endpoint, endpoint_of_extend]; rfl, hv⟩

/-- C9 witness: a concrete sentiment call issues a request to the
`sentiment` endpoint of its catalog entry. -/
theorem catalog_of_operations_witness :
    mkRequest [("endpoint", "sentiment"), ("text", "hello")]
        = mkRequest (opParams OpName.sentiment [] (CallInput.map [("text", "hello")]))
    ∧ (mkRequest [("endpoint", "sentiment"), ("text", "hello")]).endpoint
        = opEndpoint OpName.sentiment :=
  ⟨(catalog_of_operations.2.2.2.2.2.2.2.2 OpName.sentiment []
      (CallInput.map [("text", "hello")])
      (mkRequest [("endpoint", "sentiment"), ("text", "hello")]) (by decide)).1,
   (catalog_of_operations.2.2.2.2.2.2.2.2 OpName.sentiment []
      (CallInput.map [("text", "hello")])
      (mkRequest [("endpoint", "sentiment"), ("text", "hello")]) (by decide)).2.1⟩

end TextAPI
